import Mathlib

/-!
# Verification of go-caskdb (sklarsa/go-caskdb)

A shallow embedding of the repository's two source files (`disk_store.go`
contents in `src/unnamed/part_000` and `src/header.go`) into Lean 4.

Modelling conventions:

* Go byte slices and strings are modelled as `List Nat` (a Go string is a
  byte sequence; the claims restrict keys and values to valid UTF-8, for
  which the rune-by-rune re-encoding loop in `encodeKV`
  (`utf8.EncodeRune(buf[12+i:], val)` at each rune's byte index `i`)
  reproduces exactly the string's underlying bytes, so encoding a valid
  UTF-8 string into the buffer is byte-for-byte copying).
* Machine integers are `Nat` with an explicit `% 2 ^ 32` where Go performs
  a `uint32` conversion.  `int64` / `uint` / `int` quantities (file
  offsets, lengths) never overflow in these claims and are plain `Nat`.
* A Go `panic` (out-of-range slice, failed `ReadAt`, `panic(err)`) is
  modelled as `none`; normal return is `some`.  `headerFromBytes`, which
  returns an `error` value, is modelled with `Except String`.
* `time.Now().Unix()` is passed in as an explicit `timestamp` parameter.
* The package-level global `var keyDir map[string]keyEntry` is carried in
  the state record `StoreState` and the single global value is threaded
  through every instance's operations; two live `DiskStore` instances
  share one `keyDir` value, each having its own file and cursor.
-/

namespace CaskDB

/-- Little-endian 32-bit encoding, as in `binary.LittleEndian.PutUint32`:
the four bytes of `n % 2 ^ 32`, least significant first. -/
def putUint32LE (n : Nat) : List Nat :=
  [n % 256, n / 256 % 256, n / 65536 % 256, n / 16777216 % 256]

/-- Little-endian 32-bit decoding of the first four bytes, as in
`binary.LittleEndian.Uint32` (in the source the buffer always has at
least four bytes at the read position; shorter input would panic in Go
and is given the junk value 0 here, on an unreachable path). -/
def readUint32LE : List Nat → Nat
  | b0 :: b1 :: b2 :: b3 :: _ => b0 + 256 * b1 + 65536 * b2 + 16777216 * b3
  | _ => 0

/-- `header` from header.go: three `uint32` fields. -/
structure Header where
  timestamp : Nat
  keySize : Nat
  valueSize : Nat
deriving DecidableEq

/-- `header.WriteBytes`: serialise the three fields little-endian into a
12-byte buffer (timestamp at 0, keySize at 4, valueSize at 8). -/
def Header.writeBytes (h : Header) : List Nat :=
  putUint32LE h.timestamp ++ putUint32LE h.keySize ++ putUint32LE h.valueSize

/-- `header.KeyLen`: total record length `12 + keySize + valueSize`. -/
def Header.keyLen (h : Header) : Nat :=
  12 + h.keySize + h.valueSize

/-- `headerFromBytes` from header.go: errors unless the buffer is exactly
12 bytes, otherwise reads the three little-endian `uint32` fields. -/
def headerFromBytes (buf : List Nat) : Except String Header :=
  if buf.length ≠ 12 then
    .error "invalid header size"
  else
    .ok { timestamp := readUint32LE (buf.take 4)
          keySize := readUint32LE ((buf.drop 4).take 4)
          valueSize := readUint32LE ((buf.drop 8).take 4) }

/-- `encodeKV`: builds `header.writeBytes ++ key ++ value` and returns the
buffer with its length.  The Go code sets `keySize := uint32(len(key))`
and `valueSize := uint32(len(value))`; when either true length is at
least `2 ^ 32`, the truncated sizes make the allocated buffer shorter
than the bytes the rune loops then write, so the out-of-range write
panics — modelled as `none`. -/
def encodeKV (timestamp : Nat) (key value : List Nat) :
    Option (Nat × List Nat) :=
  if key.length < 2 ^ 32 ∧ value.length < 2 ^ 32 then
    let h : Header :=
      { timestamp := timestamp, keySize := key.length,
        valueSize := value.length }
    some (h.keyLen, h.writeBytes ++ key ++ value)
  else
    none

/-- `decodeKV`: `data[:12]` panics when the buffer is shorter than 12
bytes; `headerFromBytes` then always receives exactly 12 bytes (so its
error branch is unreachable here); `data[12 : 12+keySize]` panics when
the buffer is shorter than `12 + keySize`; the value is everything after
the key — the header's `valueSize` field is never consulted. -/
def decodeKV (data : List Nat) : Option (Nat × List Nat × List Nat) :=
  if data.length < 12 then
    none
  else
    match headerFromBytes (data.take 12) with
    | .error _ => none
    | .ok h =>
      if data.length < 12 + h.keySize then
        none
      else
        some (h.timestamp, (data.drop 12).take h.keySize,
          data.drop (12 + h.keySize))

/-- `keyEntry`: metadata stored in `keyDir`.  `fileId` is an unused todo
field that the `keyEntry{...}` literal in `Set` leaves at zero.  The
source stores the whole record's length in `valueSize` and the record's
starting offset in `valuePos`. -/
structure KeyEntry where
  fileId : Nat
  valueSize : Nat
  valuePos : Nat
  timestamp : Nat
deriving DecidableEq

/-- Association-list model of the Go map `map[string]keyEntry`: lookup
returns the entry for the first matching key. -/
def kdLookup (kd : List (List Nat × KeyEntry)) (k : List Nat) :
    Option KeyEntry :=
  match kd with
  | [] => none
  | (k', e) :: rest => if k' = k then some e else kdLookup rest k

/-- Map insertion `keyDir[key] = entry` with overwrite semantics: the new
binding shadows and removes any previous binding for the same key. -/
def kdInsert (kd : List (List Nat × KeyEntry)) (k : List Nat)
    (e : KeyEntry) : List (List Nat × KeyEntry) :=
  (k, e) :: kd.filter (fun p => decide (p.1 ≠ k))

/-- The observable state of one `DiskStore` instance together with the
package-level global `keyDir`: `file` is the backing file's contents,
`curPos` the instance's cursor, `keyDir` the global index. -/
structure StoreState where
  file : List Nat
  curPos : Nat
  keyDir : List (List Nat × KeyEntry)
deriving DecidableEq

/-- `NewDiskStore`: stats the file for its size (0 when absent), opens it
with `O_RDWR|O_CREATE|O_APPEND`, and sets `curPos` to that size.  It
never reads the file's contents: the log is not replayed and the global
`keyDir` is left exactly as it was.  No content of the file can make it
fail. -/
def newDiskStore (keyDir : List (List Nat × KeyEntry))
    (diskFile : List Nat) : StoreState :=
  { file := diskFile, curPos := diskFile.length, keyDir := keyDir }

/-- `DiskStore.Set`: encodes `(uint32(timestamp), key, value)`, appends
the buffer to the file (the handle is in `O_APPEND` mode, so the write
lands at the end of the file), stores
`keyEntry{timestamp: uint32(timestamp), valueSize: uint(dataLen),
valuePos: d.curPos}` in the global `keyDir`, then advances `curPos` by
`dataLen`.  A panic inside `encodeKV` is propagated as `none`. -/
def StoreState.set (s : StoreState) (timestamp : Nat)
    (key value : List Nat) : Option StoreState :=
  match encodeKV (timestamp % 2 ^ 32) key value with
  | none => none
  | some (dataLen, data) =>
    some { file := s.file ++ data
           curPos := s.curPos + dataLen
           keyDir := kdInsert s.keyDir key
             { fileId := 0, valueSize := dataLen, valuePos := s.curPos,
               timestamp := timestamp % 2 ^ 32 } }

/-- `DiskStore.Get`: an absent key returns the empty string (`some []`),
never an error.  Otherwise `ReadAt` reads `valueSize` bytes at offset
`valuePos` (an incomplete read returns an error, on which the code
panics — `none`), decodes the record and returns the value component. -/
def StoreState.get (s : StoreState) (key : List Nat) :
    Option (List Nat) :=
  match kdLookup s.keyDir key with
  | none => some []
  | some e =>
    if e.valuePos + e.valueSize ≤ s.file.length then
      match decodeKV ((s.file.drop e.valuePos).take e.valueSize) with
      | some r => some r.2.2
      | none => none
    else
      none

/-! ## Helper lemmas -/

theorem length_putUint32LE (n : Nat) : (putUint32LE n).length = 4 := rfl

theorem length_writeBytes (h : Header) : h.writeBytes.length = 12 := by
  simp [Header.writeBytes, putUint32LE]

theorem readUint32LE_putUint32LE_append (n : Nat) (rest : List Nat) :
    readUint32LE (putUint32LE n ++ rest) = n % 2 ^ 32 := by
  simp only [putUint32LE, List.cons_append, List.nil_append, readUint32LE]
  omega

theorem readUint32LE_take (l : List Nat) :
    readUint32LE (l.take 4) = readUint32LE l := by
  match l with
  | [] => rfl
  | [_] => rfl
  | [_, _] => rfl
  | [_, _, _] => rfl
  | _ :: _ :: _ :: _ :: _ => rfl

theorem readUint32LE_putUint32LE (n : Nat) :
    readUint32LE (putUint32LE n) = n % 2 ^ 32 := by
  simp only [putUint32LE, readUint32LE]
  omega

theorem headerFromBytes_writeBytes (t ks vs : Nat) :
    headerFromBytes (Header.writeBytes ⟨t, ks, vs⟩) =
      .ok ⟨t % 2 ^ 32, ks % 2 ^ 32, vs % 2 ^ 32⟩ := by
  have hbuf : Header.writeBytes ⟨t, ks, vs⟩ =
      putUint32LE t ++ (putUint32LE ks ++ putUint32LE vs) := by
    simp [Header.writeBytes, List.append_assoc]
  have h4 : (Header.writeBytes ⟨t, ks, vs⟩).drop 4 =
      putUint32LE ks ++ putUint32LE vs := by
    rw [hbuf]
    exact List.drop_left' (length_putUint32LE t)
  have h44 : ((Header.writeBytes ⟨t, ks, vs⟩).drop 4).drop 4 =
      (Header.writeBytes ⟨t, ks, vs⟩).drop 8 :=
    List.drop_drop 4 4 _
  have h8 : (Header.writeBytes ⟨t, ks, vs⟩).drop 8 = putUint32LE vs := by
    rw [← h44, h4]
    exact List.drop_left' (length_putUint32LE ks)
  rw [headerFromBytes, if_neg (by rw [length_writeBytes]; simp)]
  rw [h4, h8, readUint32LE_take, readUint32LE_take, readUint32LE_take, hbuf,
    readUint32LE_putUint32LE_append, readUint32LE_putUint32LE_append,
    readUint32LE_putUint32LE]

theorem encodeKV_eq (t : Nat) (k v : List Nat)
    (hk : k.length < 2 ^ 32) (hv : v.length < 2 ^ 32) :
    encodeKV t k v = some (12 + k.length + v.length,
      Header.writeBytes ⟨t, k.length, v.length⟩ ++ k ++ v) := by
  simp only [encodeKV]
  rw [if_pos ⟨hk, hv⟩]
  rfl

theorem decodeKV_record (t : Nat) (k v : List Nat)
    (hk : k.length < 2 ^ 32) (hv : v.length < 2 ^ 32) :
    decodeKV (Header.writeBytes ⟨t, k.length, v.length⟩ ++ k ++ v) =
      some (t % 2 ^ 32, k, v) := by
  have hwb := length_writeBytes (⟨t, k.length, v.length⟩ : Header)
  have hlen : (Header.writeBytes ⟨t, k.length, v.length⟩ ++ k ++ v).length =
      12 + k.length + v.length := by
    simp [hwb]
    omega
  have htake : (Header.writeBytes ⟨t, k.length, v.length⟩ ++ k ++ v).take 12 =
      Header.writeBytes ⟨t, k.length, v.length⟩ := by
    rw [List.append_assoc]
    exact List.take_left' hwb
  have hdrop : (Header.writeBytes ⟨t, k.length, v.length⟩ ++ k ++ v).drop 12 =
      k ++ v := by
    rw [List.append_assoc]
    exact List.drop_left' hwb
  have hdrop2 : (Header.writeBytes ⟨t, k.length, v.length⟩ ++ k ++ v).drop
      (12 + k.length) = v :=
    List.drop_left' (by simp [hwb])
  simp only [decodeKV, hlen, htake, hdrop, hdrop2, headerFromBytes_writeBytes,
    Nat.mod_eq_of_lt hk, Nat.mod_eq_of_lt hv]
  rw [if_neg (by omega), if_neg (by omega), List.take_left]

theorem kdLookup_kdInsert_self (kd : List (List Nat × KeyEntry))
    (k : List Nat) (e : KeyEntry) :
    kdLookup (kdInsert kd k e) k = some e := by
  simp [kdInsert, kdLookup]

theorem countP_kdInsert_self (kd : List (List Nat × KeyEntry))
    (k : List Nat) (e : KeyEntry) :
    (kdInsert kd k e).countP (fun p => decide (p.1 = k)) = 1 := by
  rw [kdInsert, List.countP_cons_of_pos _ _ (by simp), List.countP_filter]
  simp

theorem set_eq (s : StoreState) (ts : Nat) (k v : List Nat)
    (hk : k.length < 2 ^ 32) (hv : v.length < 2 ^ 32) :
    s.set ts k v = some
      { file := s.file ++
          (Header.writeBytes ⟨ts % 2 ^ 32, k.length, v.length⟩ ++ k ++ v)
        curPos := s.curPos + (12 + k.length + v.length)
        keyDir := kdInsert s.keyDir k
          { fileId := 0, valueSize := 12 + k.length + v.length,
            valuePos := s.curPos, timestamp := ts % 2 ^ 32 } } := by
  simp only [StoreState.set, encodeKV_eq (ts % 2 ^ 32) k v hk hv]

theorem get_after_set (s : StoreState) (ts : Nat) (k v : List Nat)
    (hwf : s.curPos = s.file.length)
    (hk : k.length < 2 ^ 32) (hv : v.length < 2 ^ 32) :
    (s.set ts k v).bind (fun s2 => s2.get k) = some v := by
  have hdata : (Header.writeBytes ⟨ts % 2 ^ 32, k.length, v.length⟩ ++ k ++
      v).length = 12 + k.length + v.length := by
    simp [length_writeBytes]
    omega
  rw [set_eq s ts k v hk hv, Option.some_bind]
  simp only [StoreState.get, kdLookup_kdInsert_self]
  rw [if_pos (by simp only [List.length_append, hdata]; omega)]
  rw [hwf, List.drop_left, ← hdata, List.take_length,
    decodeKV_record (ts % 2 ^ 32) k v hk hv]

theorem get_of_set (s s2 : StoreState) (ts : Nat) (k v : List Nat)
    (hwf : s.curPos = s.file.length)
    (hk : k.length < 2 ^ 32) (hv : v.length < 2 ^ 32)
    (h : s.set ts k v = some s2) : s2.get k = some v := by
  have hb := get_after_set s ts k v hwf hk hv
  rw [h, Option.some_bind] at hb
  exact hb

theorem set_wf (s s2 : StoreState) (ts : Nat) (k v : List Nat)
    (hwf : s.curPos = s.file.length)
    (hk : k.length < 2 ^ 32) (hv : v.length < 2 ^ 32)
    (h : s.set ts k v = some s2) : s2.curPos = s2.file.length := by
  rw [set_eq s ts k v hk hv] at h
  obtain rfl := Option.some.inj h
  simp only [List.length_append, length_writeBytes, hwf]

/-! ## Claim theorems -/

/-- Claim C1: the claim says `NewDiskStore` replays the existing log from
offset 0 and rebuilds the index before serving, so that after
Set / Close / Open the value is returned.  The source's `NewDiskStore`
never reads the file: opening a file that already contains a full record
for key "k" (`[107]`) with value "v" (`[118]`) in a fresh process (the
global `keyDir` starts empty) yields a store whose `Get` returns the
empty string instead of the stored value. -/
theorem newDiskStore_does_not_replay :
    (encodeKV 7 [107] [118]).map
      (fun p => (newDiskStore [] p.2).get [107]) = some (some []) ∧
    (encodeKV 7 [107] [118]).map
      (fun p => (newDiskStore [] p.2).get [107]) ≠ some (some [118]) := by
  decide

/-- Claim C2 as stated fails for a key of `2 ^ 32` bytes: `uint32`
truncation of the sizes makes the encoder's buffer too small for the
rune-writing loops, which panic (out-of-range write), so no buffer is
produced and the round trip cannot return the triple. -/
theorem roundtrip_truncation_counterexample :
    (encodeKV 0 (List.replicate (2 ^ 32) 0) []).bind
      (fun p => decodeKV p.2) ≠ some (0, List.replicate (2 ^ 32) 0, []) := by
  have h : encodeKV 0 (List.replicate (2 ^ 32) 0) [] = none := by
    unfold encodeKV
    rw [if_neg]
    intro hc
    rw [List.length_replicate] at hc
    exact Nat.lt_irrefl _ hc.1
  rw [h, Option.none_bind]
  exact fun hc => Option.noConfusion hc

/-- Claim C2 (amended): for every `uint32` timestamp and all keys and
values whose byte lengths are below `2 ^ 32`, decoding the buffer
produced by `encodeKV` yields back exactly the same triple. -/
theorem decodeKV_encodeKV_roundtrip (t : Nat) (k v : List Nat)
    (ht : t < 2 ^ 32) (hk : k.length < 2 ^ 32) (hv : v.length < 2 ^ 32) :
    (encodeKV t k v).bind (fun p => decodeKV p.2) = some (t, k, v) := by
  rw [encodeKV_eq t k v hk hv, Option.some_bind,
    decodeKV_record t k v hk hv, Nat.mod_eq_of_lt ht]

/-- Witness for C2's amended round-trip at timestamp 5, key "hi", value
"!". -/
theorem decodeKV_encodeKV_roundtrip_witness :
    (5 : Nat) < 2 ^ 32 ∧
    (encodeKV 5 [104, 105] [33]).bind (fun p => decodeKV p.2) =
      some (5, [104, 105], [33]) :=
  ⟨by decide, decodeKV_encodeKV_roundtrip 5 [104, 105] [33]
    (by decide) (by decide) (by decide)⟩

/-- Claim C3 as stated fails: after `Set("k", "v")` on an empty store
(cursor 0) the claim's formulas require the index entry
`(valueOffset, valueSize) = (0 + 12 + 1, 1) = (13, 1)`, but the source
stores `valuePos = 0` (the old cursor) and `valueSize = 14` (the whole
encoded record's length). -/
theorem set_entry_layout_counterexample :
    ((newDiskStore [] []).set 0 [107] [118]).map
      (fun s => (kdLookup s.keyDir [107]).map
        (fun e => (e.valuePos, e.valueSize))) = some (some (0, 14)) ∧
    ((newDiskStore [] []).set 0 [107] [118]).map
      (fun s => (kdLookup s.keyDir [107]).map
        (fun e => (e.valuePos, e.valueSize))) ≠ some (some (13, 1)) := by
  decide

/-- Claim C3 (amended): a successful `Set(k, v)` from cursor `c` stores an
index entry for `k` with `valuePos = c` (the start of the new record) and
`valueSize = 12 + len(k) + len(v)` (the whole encoded record's length),
then advances the cursor by exactly that total encoded length. -/
theorem set_index_entry (s : StoreState) (ts : Nat) (k v : List Nat)
    (hk : k.length < 2 ^ 32) (hv : v.length < 2 ^ 32) :
    ∃ s2, s.set ts k v = some s2 ∧
      kdLookup s2.keyDir k = some
        { fileId := 0, valueSize := 12 + k.length + v.length,
          valuePos := s.curPos, timestamp := ts % 2 ^ 32 } ∧
      s2.curPos = s.curPos + (12 + k.length + v.length) :=
  ⟨_, set_eq s ts k v hk hv, kdLookup_kdInsert_self _ _ _, rfl⟩

/-- Witness for C3's amended statement on an empty store. -/
theorem set_index_entry_witness :
    ∃ s2, (newDiskStore [] []).set 0 [107] [118] = some s2 ∧
      kdLookup s2.keyDir [107] = some
        { fileId := 0, valueSize := 14, valuePos := 0, timestamp := 0 } ∧
      s2.curPos = 14 :=
  set_index_entry (newDiskStore [] []) 0 [107] [118] (by decide) (by decide)

/-- Claim C4: on an open store whose cursor sits at the end of its file,
a successful `Set(k, v)` followed by `Get(k)` returns `v`. -/
theorem get_returns_last_set_value (s : StoreState) (ts : Nat)
    (k v : List Nat) (hwf : s.curPos = s.file.length)
    (hk : k.length < 2 ^ 32) (hv : v.length < 2 ^ 32) :
    (s.set ts k v).bind (fun s2 => s2.get k) = some v :=
  get_after_set s ts k v hwf hk hv

/-- Witness for C4 on a freshly opened empty store. -/
theorem get_returns_last_set_value_witness :
    (newDiskStore [] []).curPos = (newDiskStore [] []).file.length ∧
    ((newDiskStore [] []).set 99 [107] [118]).bind
      (fun s2 => s2.get [107]) = some [118] :=
  ⟨rfl, get_returns_last_set_value (newDiskStore [] []) 99 [107] [118]
    rfl (by decide) (by decide)⟩

/-- Claim C5: after `Set(k, v1)` then `Set(k, v2)` on an open store,
`Get(k)` returns `v2`; the index holds exactly one entry for `k`, and it
points at the second record (which starts right after the first one). -/
theorem overwrite_last_wins (s : StoreState) (ts1 ts2 : Nat)
    (k v1 v2 : List Nat) (hwf : s.curPos = s.file.length)
    (hk : k.length < 2 ^ 32) (hv1 : v1.length < 2 ^ 32)
    (hv2 : v2.length < 2 ^ 32) :
    ∃ s2, (s.set ts1 k v1).bind (fun s1 => s1.set ts2 k v2) = some s2 ∧
      s2.get k = some v2 ∧
      s2.keyDir.countP (fun p => decide (p.1 = k)) = 1 ∧
      (kdLookup s2.keyDir k).map KeyEntry.valuePos =
        some (s.curPos + (12 + k.length + v1.length)) := by
  have h1 := set_eq s ts1 k v1 hk hv1
  have hwf1 := set_wf s _ ts1 k v1 hwf hk hv1 h1
  rw [h1, Option.some_bind]
  refine ⟨_, set_eq _ ts2 k v2 hk hv2, ?_, ?_, ?_⟩
  · exact get_of_set _ _ ts2 k v2 hwf1 hk hv2 (set_eq _ ts2 k v2 hk hv2)
  · exact countP_kdInsert_self _ _ _
  · rw [kdLookup_kdInsert_self]
    rfl

/-- Witness for C5 on a freshly opened empty store. -/
theorem overwrite_last_wins_witness :
    ∃ s2, ((newDiskStore [] []).set 1 [107] [118]).bind
        (fun s1 => s1.set 2 [107] [119, 120]) = some s2 ∧
      s2.get [107] = some [119, 120] ∧
      s2.keyDir.countP (fun p => decide (p.1 = [107])) = 1 ∧
      (kdLookup s2.keyDir [107]).map KeyEntry.valuePos = some 14 :=
  overwrite_last_wins (newDiskStore [] []) 1 2 [107] [118] [119, 120]
    rfl (by decide) (by decide) (by decide)

/-- Claim C6: the claim says a file truncated mid-record (full 12-byte
header, declared key/value bytes missing) makes Open fail with a
TruncatedRecord error.  The source's `NewDiskStore` never inspects the
file's contents and has no such error: on a 12-byte file whose header
declares `keySize = 1` and `valueSize = 1` (so the record needs 14
bytes), it succeeds and returns a usable store with cursor 12 and an
untouched (empty) index. -/
theorem newDiskStore_ignores_truncation :
    (putUint32LE 0 ++ putUint32LE 1 ++ putUint32LE 1).length = 12 ∧
    readUint32LE ((putUint32LE 0 ++ putUint32LE 1 ++ putUint32LE 1).drop 4)
      = 1 ∧
    readUint32LE ((putUint32LE 0 ++ putUint32LE 1 ++ putUint32LE 1).drop 8)
      = 1 ∧
    newDiskStore [] (putUint32LE 0 ++ putUint32LE 1 ++ putUint32LE 1) =
      { file := putUint32LE 0 ++ putUint32LE 1 ++ putUint32LE 1,
        curPos := 12, keyDir := [] } := by
  decide

/-- Claim C7: `Get` on a key absent from the index returns the empty
string, never a panic or an error. -/
theorem get_absent_key (s : StoreState) (k : List Nat)
    (h : kdLookup s.keyDir k = none) : s.get k = some [] := by
  simp [StoreState.get, h]

/-- Witness for C7 on a freshly opened empty store. -/
theorem get_absent_key_witness :
    kdLookup (newDiskStore [] []).keyDir [107] = none ∧
    (newDiskStore [] []).get [107] = some [] :=
  ⟨rfl, get_absent_key (newDiskStore [] []) [107] rfl⟩

/-- Claim C8 as stated fails: a 13-byte buffer whose header declares
`keySize = 0` and `valueSize = 0` has length `13 ≠ 12 + 0 + 0`, yet
`decodeKV` succeeds on it (returning the extra byte as part of the
value) instead of failing with a malformed-header error. -/
theorem decodeKV_oversized_buffer_counterexample :
    (putUint32LE 0 ++ putUint32LE 0 ++ putUint32LE 0 ++ [42]).length ≠
      12 + 0 + 0 ∧
    readUint32LE (((putUint32LE 0 ++ putUint32LE 0 ++ putUint32LE 0 ++
      [42]).take 12).drop 4) = 0 ∧
    readUint32LE (((putUint32LE 0 ++ putUint32LE 0 ++ putUint32LE 0 ++
      [42]).take 12).drop 8) = 0 ∧
    decodeKV (putUint32LE 0 ++ putUint32LE 0 ++ putUint32LE 0 ++ [42]) =
      some (0, [], [42]) := by
  decide

/-- Claim C8 (amended): `decodeKV` never returns a malformed-header
error: it panics (out-of-range slice) exactly when the buffer is shorter
than `12 + keySize` — in particular for all buffers of fewer than 12
bytes — and succeeds on every longer buffer, ignoring the header's
`valueSize` entirely; `headerFromBytes` alone returns its
invalid-header-size error exactly when its input is not 12 bytes. -/
theorem decodeKV_failure_characterization (data buf : List Nat) :
    (decodeKV data = none ↔
      data.length < 12 + readUint32LE ((data.take 12).drop 4)) ∧
    ((headerFromBytes buf).isOk ↔ buf.length = 12) := by
  constructor
  · by_cases h12 : data.length < 12
    · simp only [decodeKV, if_pos h12]
      exact iff_of_true trivial (by omega)
    · have htl : (data.take 12).length = 12 := by
        rw [List.length_take]
        omega
      have hh : headerFromBytes (data.take 12) = .ok
          ⟨readUint32LE ((data.take 12).take 4),
            readUint32LE (((data.take 12).drop 4).take 4),
            readUint32LE (((data.take 12).drop 8).take 4)⟩ := by
        simp only [headerFromBytes]
        rw [if_neg (by rw [htl]; simp)]
      simp only [decodeKV, if_neg h12, hh, readUint32LE_take]
      split_ifs with h2
      · exact iff_of_true rfl h2
      · exact iff_of_false not_false h2
  · by_cases h : buf.length = 12
    · simp [headerFromBytes, h, Except.isOk, Except.toBool]
    · simp [headerFromBytes, h, Except.isOk, Except.toBool]

/-- Claim C9: the claim says each Store instance exclusively owns its
index.  In the source `keyDir` is a package-level global shared by every
instance: instance B, opened on its own (empty) file, answers
`Get("k")` with "" (not found) while the global index is empty, but
after instance A (opened on a different, also empty, file) performs
`Set("k", "v")`, B's `Get("k")` finds A's entry in the shared index and
panics reading past its own file's end — A's `Set` changed what B's
`Get` observes. -/
theorem keyDir_shared_between_instances :
    (newDiskStore [] []).get [107] = some [] ∧
    ((newDiskStore [] []).set 0 [107] [118]).map
      (fun sA => (newDiskStore sA.keyDir []).get [107]) = some none := by
  decide

/-- Claim C10: on an open store, `Get` answers the empty string both for
a key that was never set (`k2`, absent from the index) and for a key
whose most recent `Set` stored the empty value — the two cases are
indistinguishable at the public interface. -/
theorem empty_value_indistinguishable_from_absent (s : StoreState)
    (ts : Nat) (k k2 : List Nat) (hwf : s.curPos = s.file.length)
    (hk : k.length < 2 ^ 32) (habs : kdLookup s.keyDir k2 = none) :
    s.get k2 = some [] ∧
    (s.set ts k []).bind (fun s2 => s2.get k) = some [] :=
  ⟨by simp [StoreState.get, habs],
    get_after_set s ts k [] hwf hk (by decide)⟩

/-- Witness for C10 on a freshly opened empty store. -/
theorem empty_value_indistinguishable_from_absent_witness :
    (newDiskStore [] []).get [9] = some [] ∧
    ((newDiskStore [] []).set 3 [107] []).bind
      (fun s2 => s2.get [107]) = some [] :=
  empty_value_indistinguishable_from_absent (newDiskStore [] []) 3
    [107] [9] rfl (by decide) rfl

end CaskDB
